import Mathlib

/-!
Verification of the `ftp` package (a minimal RFC 959 FTP client).

The Go sources are shallowly embedded: strings become `List Char`, the
line-oriented control-connection transport becomes an explicit stream of
read results, machine integers become `Int`/`Nat` (Go `strconv.Atoi`
saturates at the 64-bit integer bound on overflow, which is modelled where
the source ignores the accompanying error), and fallible functions return
`Except`/`Option` or pair their result with an optional error exactly as
the Go functions return `(value, error)` pairs.
-/

namespace Ftp

/-! ## Decimal digits, `strconv.Itoa` and `strconv.Atoi` -/

/-- The decimal digit character for `n < 10` (used by the `strconv.Itoa` model). -/
def digitChar : Nat → Char
  | 0 => '0' | 1 => '1' | 2 => '2' | 3 => '3' | 4 => '4'
  | 5 => '5' | 6 => '6' | 7 => '7' | 8 => '8' | 9 => '9'
  | _ => '?'

/-- Numeric value of a decimal digit character. -/
def digVal (c : Char) : Nat := c.toNat - 48

/-- Fuel-based digit expansion (the fuel keeps the recursion structural, so
the kernel can still evaluate it; any fuel above the value works, see
`natToDigsAux_fuel`). -/
def natToDigsAux (fuel n : Nat) : List Char :=
  match fuel with
  | 0 => []
  | f + 1 =>
    if n < 10 then [digitChar n]
    else natToDigsAux f (n / 10) ++ [digitChar (n % 10)]

/-- Big-endian decimal digits of a natural number (`strconv.Itoa` on `Nat`). -/
def natToDigs (n : Nat) : List Char := natToDigsAux (n + 1) n

/-- Model of Go `strconv.Itoa`. -/
def itoa (i : Int) : List Char :=
  if i < 0 then '-' :: natToDigs (-i).toNat else natToDigs i.toNat

/-- Decimal value of a digit string (most significant first). -/
def digsVal (s : List Char) : Nat := s.foldl (fun a c => a * 10 + digVal c) 0

/-- Digit-run part of the Go `strconv.Atoi` model: every character must be a
decimal digit and the string must be nonempty, otherwise the parse fails with
a syntax error. -/
def goAtoiNat (s : List Char) : Option Nat :=
  if s ≠ [] ∧ s.all Char.isDigit then some (digsVal s) else none

/-- Model of Go `strconv.Atoi`: an optional leading sign followed by digits,
the value constrained to the 64-bit `int` range `[-2^63, 2^63 - 1]` — outside
it Go returns `ErrRange` (together with the saturated value, which every
caller that checks the error discards, so the failure maps to `none`; the one
call site that ignores the error is modelled by `goAtoiClamp`). -/
def goAtoi (s : List Char) : Option Int :=
  match s with
  | [] => none
  | c :: rest =>
    if c = '-' then
      (goAtoiNat rest).bind (fun n => if n ≤ 2 ^ 63 then some (-(n : Int)) else none)
    else if c = '+' then
      (goAtoiNat rest).bind (fun n => if n < 2 ^ 63 then some ((n : Int)) else none)
    else (goAtoiNat s).bind (fun n => if n < 2 ^ 63 then some ((n : Int)) else none)

/-- Model of `n, _ := strconv.Atoi(s)` on an all-digit string: the error is
discarded, and on overflow Go's `ParseInt` hands back the saturated 64-bit
value `2^63 - 1` together with the (ignored) range error. -/
def goAtoiClamp (s : List Char) : Nat := min (digsVal s) (2 ^ 63 - 1)

/-! ## The Reply value and its classification predicates

The `Reply` declaration file of the repository is not under `src/`; only its
uses are.  The structure is reconstructed from those uses, the predicates
from the spec. -/

/-- An FTP server reply: a three-digit status code and the message body
(source: `Reply{Code: Code(code)}` / `reply.Msg` in `client.go`). -/
structure Reply where
  Code : Int
  Msg : List Char
deriving DecidableEq

/-- Modelled from the spec: `isPositiveComplete` of the missing Reply-model
file is the 2xx completion range (spec 4.1 and 8: code 200 is complete). -/
def Reply.PositiveComplete (r : Reply) : Prop := 200 ≤ r.Code ∧ r.Code < 300

instance (r : Reply) : Decidable r.PositiveComplete :=
  inferInstanceAs (Decidable (_ ∧ _))

/-- Modelled from the spec: the generic `isPositive` predicate of the missing
Reply-model file accepts 1xx/2xx/3xx and rejects 4xx/5xx (spec 4.1). -/
def Reply.Positive (r : Reply) : Prop := 100 ≤ r.Code ∧ r.Code < 400

instance (r : Reply) : Decidable r.Positive :=
  inferInstanceAs (Decidable (_ ∧ _))

/-- Modelled from the spec: the distinguished PASV success code (the constant
declaration is not under `src/`; spec 8 shows the `227` PASV body). -/
def CodePassive : Int := 227

/-- Modelled from the spec: the distinguished EPSV "extended passive" success
code (declaration not under `src/`; spec 8 shows the `229` EPSV body). -/
def CodeExtendedPassive : Int := 229

/-! ## The reply reader (`response` in `client.go`)

The line transport is a stream of `ReadLine` results: `some line` is a
successfully framed line, `none` is an I/O failure; an exhausted stream also
reads as an I/O failure (EOF). -/

/-- A line of text, as a character list. -/
abbrev Line := List Char

/-- The control-connection read stream. -/
abbrev ReadStream := List (Option Line)

/-- Errors produced by the reply reader and the command channel. -/
inductive RErr where
  /-- an I/O error from `ReadLine` -/
  | ioErr
  /-- `errors.New("Short response line in FTP")` -/
  | shortLine
  /-- the error returned by `strconv.Atoi(line[:3])` -/
  | atoiErr
  /-- `errors.New("Expected space after FTP response code")` -/
  | badSep
deriving DecidableEq

/-- One `c.proto.ReadLine()` call on the modelled stream. -/
def readLine : ReadStream → Option Line × ReadStream
  | [] => (none, [])
  | x :: rest => (x, rest)

/-- `strings.Join(lines, "\n")`. -/
def joinNL (ls : List Line) : Line := List.intercalate ['\n'] ls

/-- The accumulation loop of the multi-line branch of `response`: read lines,
appending each verbatim, until a read fails (the loop breaks carrying the
error) or a line starts with `endMark` (= decimal code + space), whose
remainder is the final segment. -/
def multiLoop (endMark : Line) (lines : List Line) : ReadStream → List Line × Option RErr × ReadStream
  | [] => (lines, some .ioErr, [])
  | none :: rest => (lines, some .ioErr, rest)
  | some l :: rest =>
    if endMark.isPrefixOf l then (lines ++ [l.drop endMark.length], none, rest)
    else multiLoop endMark (lines ++ [l]) rest

/-- Model of `(*Client).response` in `client.go`: read one reply from the
stream.  The Go length test `len(line) < 4` and the indexings `line[:3]`,
`line[3]`, `line[4:]` are rendered by matching the line against four leading
characters; the `switch line[3]` becomes the equivalent two-way test. -/
def response (s : ReadStream) : (Reply × Option RErr) × ReadStream :=
  match readLine s with
  | (none, s₁) => ((⟨0, []⟩, some .ioErr), s₁)
  | (some line, s₁) =>
    match line with
    | c₀ :: c₁ :: c₂ :: c₃ :: rest =>
      match goAtoi [c₀, c₁, c₂] with
      | none => ((⟨0, []⟩, some .atoiErr), s₁)
      | some code =>
        if c₃ = '-' then
          let endMark := itoa code ++ [' ']
          let (ls, e, s₂) := multiLoop endMark [rest] s₁
          ((⟨code, joinNL ls⟩, e), s₂)
        else if c₃ = ' ' then ((⟨code, rest⟩, none), s₁)
        else ((⟨0, []⟩, some .badSep), s₁)
    | _ => ((⟨0, []⟩, some .shortLine), s₁)

/-! ## Go error values

A single error type covering every `error` value the embedded functions
produce. -/

/-- Go `error` values of the embedded code. -/
inductive GoErr where
  /-- a transport or framing error from the reply reader -/
  | rerr (e : RErr)
  /-- a write (`PrintfLine`) failure on the control connection -/
  | wio
  /-- a protocol rejection: the `Reply` itself returned as the error -/
  | reply (r : Reply)
  /-- `errors.New(s)` -/
  | str (s : String)
  /-- an error from `strconv.Atoi` -/
  | num
  /-- a failure of the data-connection dial -/
  | dial
  /-- a failure of the data connection's own `Close` -/
  | dclose
deriving DecidableEq

/-! ## EPSV reply parsing (`parseEpsvReply`) -/

/-- `epsvStart` constant of the source. -/
def epsvStart : Line := "(|||".toList

/-- `epsvEnd` constant of the source. -/
def epsvEnd : Line := "|)".toList

/-- Whether `pat` occurs in `s` starting at index `i`
(`strings.HasPrefix(s[i:], pat)`). -/
def occursAt (pat s : Line) (i : Nat) : Bool := pat.isPrefixOf (s.drop i)

/-- Scan for the largest index `< n` at which `pat` occurs. -/
def lastIdxAux (pat s : Line) : Nat → Option Nat
  | 0 => none
  | n + 1 => if occursAt pat s n then some n else lastIdxAux pat s n

/-- Model of Go `strings.LastIndex(s, pat)`: the byte index of the last
occurrence (`none` for Go's `-1`).  The message bodies concerned are ASCII,
so byte indices and character indices agree. -/
def lastIndexOf (pat s : Line) : Option Nat := lastIdxAux pat s (s.length + 1)

/-- Model of `parseEpsvReply` in the passive-address file: locate the last
occurrences of the delimiters, require the end strictly after the start, and
hand `msg[start:end]` to `strconv.Atoi` (whose own error is returned as is,
modelled by `.num`). -/
def parseEpsvReply (msg : Line) : Except GoErr Int :=
  match lastIndexOf epsvStart msg with
  | none => .error (.str "EPSV reply provided no port")
  | some st =>
    let start := st + epsvStart.length
    match lastIndexOf epsvEnd msg with
    | none => .error (.str "EPSV reply provided no port")
    | some en =>
      if en ≤ start then .error (.str "EPSV reply provided no port")
      else
        match goAtoi ((msg.drop start).take (en - start)) with
        | some p => .ok p
        | none => .error .num

/-! ## PASV reply parsing (`parsePasvReply`)

`pasvRegexp` is `([0-9]+),([0-9]+),([0-9]+),([0-9]+),([0-9]+),([0-9]+)`.
Because a digit can never match `,`, the greedy `[0-9]+` groups are exactly
the maximal digit runs and no backtracking into a run can ever extend a
match, so `FindStringSubmatch` succeeds at a position iff six maximal digit
runs separated by single commas start there, and the overall match is the
leftmost such position. -/

/-- Match one `[0-9]+` group: the maximal nonempty digit run at the head. -/
def matchNum (s : Line) : Option (Line × Line) :=
  let d := s.takeWhile Char.isDigit
  if d = [] then none else some (d, s.dropWhile Char.isDigit)

/-- Match `k + 1` digit runs separated by `k` commas, returning the groups. -/
def matchNumList : Nat → Line → Option (List Line)
  | 0, s => (matchNum s).map fun p => [p.1]
  | k + 1, s =>
    match matchNum s with
    | none => none
    | some (d, r) =>
      match r with
      | ',' :: r₁ => (matchNumList k r₁).map fun l => d :: l
      | _ => none

/-- The six capture groups of `pasvRegexp` anchored at the head of `s`. -/
def matchSextetAt (s : Line) : Option (List Line) := matchNumList 5 s

/-- Leftmost match of `pasvRegexp` (the scan of `FindStringSubmatch`). -/
def findSextet : Line → Option (List Line)
  | [] => none
  | c :: rest =>
    match matchSextetAt (c :: rest) with
    | some g => some g
    | none => findSextet rest

/-- `numbers[i] = byte(n)` for `n, _ := strconv.Atoi(s)`: parse ignoring the
error (saturating per `goAtoiClamp`) and truncate to a byte. -/
def byteOfGroup (s : Line) : Nat := goAtoiClamp s % 256

/-- The result address of the negotiation (`*net.TCPAddr`): an IP given by
its bytes and a port. -/
structure TCPAddr where
  IP : List Nat
  Port : Int
deriving DecidableEq

/-- Model of `parsePasvReply`: find the six comma-separated digit groups
anywhere in the message, convert each to a byte (`byte(n)` with the `Atoi`
error ignored), and build the address from `numbers[1:5]` (the four host
bytes) and `int(numbers[5])<<8 | int(numbers[6])` (in the source, index 0 of
`numberStrings` is the full match and 1..6 are the groups; the model carries
just the six groups). -/
def parsePasvReply (msg : Line) : Except GoErr TCPAddr :=
  match findSextet msg with
  | none => .error (.str "PASV reply provided no port")
  | some g =>
    let numbers := g.map byteOfGroup
    .ok ⟨numbers.take 4, ((numbers.getD 4 0 <<< 8) ||| numbers.getD 5 0 : Nat)⟩

deriving instance DecidableEq for Except

/-! ## The command channel and the control connection

`ConnState` models the client's control connection: the address-family flag
and peer IP of `c.conn`, the scripted outcomes of successive `PrintfLine`
writes, the line read stream, and a log of the command lines written. -/

/-- State of the control connection. -/
structure ConnState where
  /-- `c.conn.RemoteAddr().Network() == "tcp6"` -/
  net6 : Bool
  /-- `c.conn.RemoteAddr().(*net.TCPAddr).IP`, as bytes -/
  peerIP : List Nat
  /-- outcomes of the successive `PrintfLine` calls (`true` = write error);
  an exhausted script means the write succeeds -/
  wfail : List Bool
  /-- the control-connection read stream -/
  rd : ReadStream
  /-- log of command lines successfully written -/
  sent : List String
deriving DecidableEq

/-- One `c.proto.PrintfLine("%s", command)` call. -/
def printfLine (command : String) (st : ConnState) : Option GoErr × ConnState :=
  match st.wfail with
  | true :: w => (some .wio, { st with wfail := w })
  | false :: w => (none, { st with wfail := w, sent := st.sent ++ [command] })
  | [] => (none, { st with sent := st.sent ++ [command] })

/-- Model of `(*Client).sendCmd` in `client.go`: write the command line, then
read one reply; the write+read pair is the unit of work handed to the
background goroutine by the cancellable `sendCommand`. -/
def sendCmd (command : String) (st : ConnState) : (Reply × Option GoErr) × ConnState :=
  match printfLine command st with
  | (some e, st₁) => ((⟨0, []⟩, some e), st₁)
  | (none, st₁) =>
    let ((r, e), rd₁) := response st₁.rd
    ((r, e.map .rerr), { st₁ with rd := rd₁ })

/-- Model of `(*Client).sendCommand` on the `ctx.Done() == nil` path, where it
just runs `sendCmd` synchronously.  (The cancellable path is modelled
separately by `selectRace` and `sendCommandResultChanSends`.) -/
def sendCommand (command : String) (st : ConnState) : (Reply × Option GoErr) × ConnState :=
  sendCmd command st

/-! ## The cancellation race of `sendCommand` and `readWelcome`

A one-shot channel is modelled by the list of values the program ever sends
on it; `selectRace sends ctxFires o` holds iff the two-way
`select { case r := <-ch: ...; case <-ctx.Done(): ... }` can produce
outcome `o` when `ctxFires` says whether the cancellation signal ever
fires. -/

/-- Possible results of racing a channel receive against `ctx.Done()`. -/
inductive RaceOutcome (α : Type) where
  /-- the channel receive completed with a value -/
  | recv (a : α)
  /-- the `ctx.Done()` branch was taken -/
  | cancelled
  /-- neither branch can ever fire: the `select` blocks forever -/
  | stuck
deriving DecidableEq

/-- The outcomes a two-way `select` (channel receive vs. `ctx.Done()`) can
produce, given the values ever sent on the channel and whether the
cancellation signal ever fires. -/
inductive selectRace {α : Type} : List α → Bool → RaceOutcome α → Prop
  | recv (a : α) (rest : List α) (c : Bool) : selectRace (a :: rest) c (.recv a)
  | cancelled (sends : List α) : selectRace sends true .cancelled
  | stuck : selectRace [] false .stuck

/-- The values ever sent on the `result` channel of the cancellable path of
`sendCommand` (`client.go`): the goroutine is started as
`go c.sendCmd(command)`, so the unit's result is discarded and nothing is
ever sent on `result`. -/
def sendCommandResultChanSends (_command : String) (_st : ConnState) :
    List (Reply × Option GoErr) := []

/-- The values ever sent on the `resp` channel of `readWelcome`
(`client.go`): the goroutine runs `r, err := c.response()` and sends
`response{r, err}`. -/
def readWelcomeResultChanSends (st : ConnState) : List (Reply × Option GoErr) :=
  [((response st.rd).1.1, (response st.rd).1.2.map .rerr)]

/-! ## Passive-address negotiation (the context-taking revision) -/

/-- Model of `obtainPassiveAddress4`: send `PASV`, require `CodePassive`, and
parse the sextet from the body. -/
def obtainPassiveAddress4 (st : ConnState) : Except GoErr TCPAddr × ConnState :=
  let ((r, e), st₁) := sendCommand "PASV" st
  match e with
  | some err => (.error err, st₁)
  | none =>
    if r.Code ≠ CodePassive then (.error (.reply r), st₁)
    else (parsePasvReply r.Msg, st₁)

/-- Model of `obtainPassiveAddress6`: send `EPSV`, require
`CodeExtendedPassive`, parse the port, and pair it with the control peer's
IP. -/
def obtainPassiveAddress6 (st : ConnState) : Except GoErr TCPAddr × ConnState :=
  let ((r, e), st₁) := sendCommand "EPSV" st
  match e with
  | some err => (.error err, st₁)
  | none =>
    if r.Code ≠ CodeExtendedPassive then (.error (.reply r), st₁)
    else
      match parseEpsvReply r.Msg with
      | .error err => (.error err, st₁)
      | .ok port => (.ok ⟨st₁.peerIP, port⟩, st₁)

/-- Model of the context-taking `obtainPassiveAddress` (the revision matching
`client.go`): on a `tcp6` peer it calls `obtainPassiveAddress6(ctx)` as a
bare statement — the returned address and error are discarded (only the
side effects on the connection remain) — and then unconditionally returns
`obtainPassiveAddress4(ctx)`. -/
def obtainPassiveAddress (st : ConnState) : Except GoErr TCPAddr × ConnState :=
  if st.net6 then
    let (_, st₁) := obtainPassiveAddress6 st
    obtainPassiveAddress4 st₁
  else
    obtainPassiveAddress4 st

/-! ## Data-channel lifecycle (`transfer.go`, the context-taking revision) -/

/-- Environment of a `transfer` call: the control connection plus whether the
data-connection dial fails. -/
structure TransferEnv where
  cs : ConnState
  dialFail : Bool
deriving DecidableEq

/-- Model of `openPassive`: negotiate the address, then dial it. -/
def openPassive (env : TransferEnv) : Except GoErr Unit × TransferEnv :=
  let (a, cs₁) := obtainPassiveAddress env.cs
  match a with
  | .error e => (.error e, { env with cs := cs₁ })
  | .ok _addr =>
    if env.dialFail then (.error .dial, { env with cs := cs₁ })
    else (.ok (), { env with cs := cs₁ })

/-- The observable result of a `transfer` call: the returned value or error,
the final environment, whether a data connection was opened, and whether the
deferred `conn.Close()` ran before returning. -/
structure TransferResult where
  res : Except GoErr Unit
  env : TransferEnv
  connOpened : Bool
  connClosed : Bool
deriving DecidableEq

/-- Model of `(*Client).transfer` in `transfer.go` (context-taking revision):
`TYPE` must complete positively; then the data connection is opened and a
closure `defer func(conn io.Closer) { if err != nil { conn.Close() } }(conn)`
is registered — it closes `conn` at return iff the function-scope variable
`err` is non-nil at that moment.  `reply, err := c.sendCommand(ctx, command)`
re-assigns that same `err`, so the transport-error return closes the
connection, while the `!reply.Positive()` return leaves `err == nil` and the
deferred close does not run. -/
def transfer (command dataType : String) (env : TransferEnv) : TransferResult :=
  let ((r₁, e₁), cs₁) := sendCommand ("TYPE " ++ dataType) env.cs
  match e₁ with
  | some err => ⟨.error err, { env with cs := cs₁ }, false, false⟩
  | none =>
    if ¬ r₁.PositiveComplete then ⟨.error (.reply r₁), { env with cs := cs₁ }, false, false⟩
    else
      let (co, env₂) := openPassive { env with cs := cs₁ }
      match co with
      | .error e => ⟨.error e, env₂, false, false⟩
      | .ok _conn =>
        let ((r₂, e₂), cs₃) := sendCommand command env₂.cs
        match e₂ with
        | some err => ⟨.error err, { env₂ with cs := cs₃ }, true, true⟩
        | none =>
          if ¬ r₂.Positive then ⟨.error (.reply r₂), { env₂ with cs := cs₃ }, true, false⟩
          else ⟨.ok (), { env₂ with cs := cs₃ }, true, false⟩

/-! ## Closing the data channel (`transferConn.Close`) -/

/-- Model of `(*transferConn).Close` in `transfer.go`: close the underlying
data transport (`rwcCloseFails` scripts its outcome); on success read exactly
one reply on the control connection, requiring a positive completion.  The
returned triple is (error result, remaining control stream, number of reply
reads performed). -/
def tcClose (rwcCloseFails : Bool) (rd : ReadStream) : Option GoErr × ReadStream × Nat :=
  if rwcCloseFails then (some .dclose, rd, 0)
  else
    let ((r, e), rd₁) := response rd
    match e with
    | some er => (some (.rerr er), rd₁, 1)
    | none =>
      if ¬ r.PositiveComplete then (some (.reply r), rd₁, 1)
      else (none, rd₁, 1)

/-! ## Helper lemmas: decimal digits -/

theorem natToDigsAux_fuel : ∀ f f' n, n < f → n < f' → natToDigsAux f n = natToDigsAux f' n := by
  intro f
  induction f with
  | zero => intro f' n h; omega
  | succ f ih =>
    intro f' n h h'
    match f', h' with
    | f' + 1, _ =>
      simp only [natToDigsAux]
      by_cases h10 : n < 10
      · simp [h10]
      · have hd : n / 10 < n := Nat.div_lt_self (by omega) (by omega)
        simp only [h10, if_false]
        rw [ih f' (n / 10) (by omega) (by omega)]

theorem natToDigs_three (n : Nat) (h1 : 100 ≤ n) (h2 : n < 1000) :
    natToDigs n = [digitChar (n / 100), digitChar (n / 10 % 10), digitChar (n % 10)] := by
  have e1 : natToDigs n = natToDigsAux (n + 1) n := rfl
  rw [e1]
  simp only [natToDigsAux, show ¬ n < 10 by omega, if_false]
  rw [natToDigsAux_fuel n (n / 10 + 1) (n / 10) (by omega) (by omega)]
  simp only [natToDigsAux, show ¬ n / 10 < 10 by omega, if_false]
  rw [natToDigsAux_fuel (n / 10) (n / 10 / 10 + 1) (n / 10 / 10) (by omega) (by omega)]
  simp only [natToDigsAux, show n / 10 / 10 < 10 by omega, if_true]
  have : n / 10 / 10 = n / 100 := by omega
  rw [this]
  have : n / 10 % 10 = n / 10 % 10 := rfl
  simp

theorem digVal_digitChar : ∀ m, m < 10 → digVal (digitChar m) = m := by decide

theorem isDigit_digitChar : ∀ m, m < 10 → (digitChar m).isDigit = true := by decide

theorem notSign_digitChar : ∀ m, m < 10 → digitChar m ≠ '-' ∧ digitChar m ≠ '+' := by decide

/-- For a conventional three-digit code, `itoa` produces three digit
characters that `strconv.Atoi` parses back to the code. -/
theorem itoa_three (code : Int) (h1 : 100 ≤ code) (h2 : code < 1000) :
    ∃ a b c : Char, itoa code = [a, b, c] ∧ goAtoi [a, b, c] = some code := by
  have hnn : ¬ code < 0 := by omega
  set n := code.toNat with hn
  have hn1 : 100 ≤ n := by omega
  have hn2 : n < 1000 := by omega
  have hdig := natToDigs_three n hn1 hn2
  have hq : n / 100 < 10 := by omega
  have hr : n / 10 % 10 < 10 := by omega
  have hs : n % 10 < 10 := by omega
  refine ⟨digitChar (n / 100), digitChar (n / 10 % 10), digitChar (n % 10), ?_, ?_⟩
  · rw [itoa, if_neg hnn, ← hn, hdig]
  · obtain ⟨hm, hp⟩ := notSign_digitChar (n / 100) hq
    rw [goAtoi, if_neg hm, if_neg hp, goAtoiNat]
    rw [if_pos]
    · have hv : digsVal [digitChar (n / 100), digitChar (n / 10 % 10), digitChar (n % 10)]
          = n := by
        simp only [digsVal, List.foldl]
        rw [digVal_digitChar _ hq, digVal_digitChar _ hr, digVal_digitChar _ hs]
        omega
      rw [hv]
      simp
      omega
    · refine ⟨by simp, ?_⟩
      simp [List.all_cons, isDigit_digitChar _ hq, isDigit_digitChar _ hr,
        isDigit_digitChar _ hs]

/-! ## Helper lemmas: the multi-line accumulation loop -/

theorem multiLoop_terminator (endMark : Line) (ls : List Line) :
    ∀ acc u s, (∀ l ∈ ls, endMark.isPrefixOf l = false) →
      multiLoop endMark acc (ls.map some ++ some (endMark ++ u) :: s)
        = (acc ++ ls ++ [u], none, s) := by
  induction ls with
  | nil =>
    intro acc u s _
    simp only [List.map_nil, List.nil_append, multiLoop]
    rw [if_pos]
    · simp
    · exact List.isPrefixOf_iff_prefix.mpr (List.prefix_append _ _)
  | cons l ls ih =>
    intro acc u s h
    simp only [List.map_cons, List.cons_append, multiLoop, List.append_eq]
    rw [if_neg (by simp [h l (by simp)])]
    rw [ih (acc ++ [l]) u s (fun x hx => h x (by simp [hx]))]
    simp

theorem multiLoop_ioErr (endMark : Line) (ls : List Line) :
    ∀ acc s, (∀ l ∈ ls, endMark.isPrefixOf l = false) →
      multiLoop endMark acc (ls.map some ++ none :: s) = (acc ++ ls, some .ioErr, s) := by
  induction ls with
  | nil => intro acc s _; simp [multiLoop]
  | cons l ls ih =>
    intro acc s h
    simp only [List.map_cons, List.cons_append, multiLoop, List.append_eq]
    rw [if_neg (by simp [h l (by simp)])]
    rw [ih (acc ++ [l]) s (fun x hx => h x (by simp [hx]))]
    simp

/-! ## Helper lemmas: bit-level port arithmetic -/

theorem lor_two_pow_add : ∀ (k a b : Nat), b < 2 ^ k → (2 ^ k * a) ||| b = 2 ^ k * a + b := by
  intro k
  induction k with
  | zero =>
    intro a b hb
    interval_cases b
    simp
  | succ k ih =>
    intro a b hb
    have hdecomp : b = 2 * (b / 2) + b % 2 := by omega
    have hbit : ∀ m, 2 * m = Nat.bit false m := by intro m; simp [Nat.bit]
    have hbit1 : ∀ m, 2 * m + 1 = Nat.bit true m := by intro m; simp [Nat.bit]
    have hb2 : b / 2 < 2 ^ k := by
      have : 2 ^ (k + 1) = 2 * 2 ^ k := by ring
      omega
    have hmul : 2 ^ (k + 1) * a = 2 * (2 ^ k * a) := by ring
    rcases Nat.even_or_odd b with he | ho
    · obtain ⟨m, hm⟩ := he
      have hbm : b = 2 * m := by omega
      have hmb : m = b / 2 := by omega
      rw [hmul, hbm, hbit, hbit, Nat.lor_bit]
      simp only [Bool.or_self]
      rw [hmb, ih a (b / 2) hb2]
      simp [Nat.bit]
      omega
    · obtain ⟨m, hm⟩ := ho
      have hmb : m = b / 2 := by omega
      rw [hmul, hm, hbit, hbit1, Nat.lor_bit]
      simp only [Bool.or_true]
      rw [hmb, ih a (b / 2) hb2]
      simp [Nat.bit]
      omega

theorem shiftLeft8_or (a b : Nat) (hb : b < 256) : (a <<< 8) ||| b = a * 256 + b := by
  have h1 : a <<< 8 = 2 ^ 8 * a := by
    rw [Nat.shiftLeft_eq]
    ring
  rw [h1, lor_two_pow_add 8 a b (by omega)]
  ring

/-! ## Claim theorems -/

/-- C5: for every valid multi-line reply input — a first line
`<code>-<text>` with a three-digit code, continuation lines none of which
begins with the code followed by a space, and a terminator line beginning
with the same code followed by a space — the reply reader returns a `Reply`
whose code is the first line's three-digit prefix and whose message is the
first line's remainder, the continuation lines, and the terminator's
remainder (its code-and-space marker stripped), joined by line breaks in
order. -/
theorem response_multiline_ok (code : Int) (t u : Line) (ls : List Line) (s : ReadStream)
    (h1 : 100 ≤ code) (h2 : code < 1000)
    (h3 : ∀ l ∈ ls, (itoa code ++ [' ']).isPrefixOf l = false) :
    response (some (itoa code ++ '-' :: t) :: (ls.map some ++ some (itoa code ++ ' ' :: u) :: s))
      = ((⟨code, joinNL (t :: (ls ++ [u]))⟩, none), s) := by
  obtain ⟨a, b, c, hab, hparse⟩ := itoa_three code h1 h2
  rw [hab] at h3 ⊢
  simp only [List.cons_append, List.nil_append, response, readLine, hparse]
  rw [if_pos trivial, hab]
  have hm := multiLoop_terminator ([a, b, c] ++ [' ']) ls [t] u s h3
  simp only [List.cons_append, List.nil_append, List.append_assoc] at hm ⊢
  rw [hm]

/-- C5 witness: the multi-line example of `TestClientResponse` in
`client_test.go`. -/
theorem response_multiline_ok_witness :
    response [some ("123-First line".toList), some ("Second line".toList),
        some ("  234 A line beginning with numbers".toList), some ("123 The last line".toList)]
      = ((⟨123, ("First line\nSecond line\n  234 A line beginning with numbers\nThe last line".toList)⟩,
          none), []) := by
  have h := response_multiline_ok 123 ("First line".toList) ("The last line".toList)
    ["Second line".toList, "  234 A line beginning with numbers".toList] []
    (by decide) (by decide) (by decide)
  exact h

/-- C8: if the transport fails while the reader is inside a multi-line reply,
before the terminator has been seen, the reader returns the `Reply`
accumulated so far (lines joined by line breaks) together with the I/O
error, not discarding the text read so far. -/
theorem response_multiline_ioErr (code : Int) (t : Line) (ls : List Line) (s : ReadStream)
    (h1 : 100 ≤ code) (h2 : code < 1000)
    (h3 : ∀ l ∈ ls, (itoa code ++ [' ']).isPrefixOf l = false) :
    response (some (itoa code ++ '-' :: t) :: (ls.map some ++ none :: s))
      = ((⟨code, joinNL (t :: ls)⟩, some .ioErr), s) := by
  obtain ⟨a, b, c, hab, hparse⟩ := itoa_three code h1 h2
  rw [hab] at h3 ⊢
  simp only [List.cons_append, List.nil_append, response, readLine, hparse]
  rw [if_pos trivial, hab]
  have hm := multiLoop_ioErr ([a, b, c] ++ [' ']) ls [t] s h3
  simp only [List.cons_append, List.nil_append, List.append_assoc] at hm ⊢
  rw [hm]

/-- C8 witness: the transport dies after one continuation line. -/
theorem response_multiline_ioErr_witness :
    response [some ("226-Transfer starting".toList), some ("more text".toList), none]
      = ((⟨226, ("Transfer starting\nmore text".toList)⟩, some .ioErr), []) := by
  have h := response_multiline_ioErr 226 ("Transfer starting".toList) ["more text".toList] []
    (by decide) (by decide) (by decide)
  exact h

/-- C9: a line shorter than 4 characters, or a line whose 4th character is
neither a space nor a hyphen, makes the reply reader return a framing error
and the zero `Reply` (no reply value). -/
theorem response_framing_error (line : Line) (s : ReadStream)
    (h : line.length < 4 ∨
      ∃ c₀ c₁ c₂ c₃ r, line = c₀ :: c₁ :: c₂ :: c₃ :: r ∧ c₃ ≠ ' ' ∧ c₃ ≠ '-') :
    (response (some line :: s)).1.1 = ⟨0, []⟩ ∧ ((response (some line :: s)).1.2).isSome = true := by
  rcases h with hshort | ⟨c₀, c₁, c₂, c₃, r, rfl, hsp, hhy⟩
  · match line, hshort with
    | [], _ => exact ⟨rfl, rfl⟩
    | [_], _ => exact ⟨rfl, rfl⟩
    | [_, _], _ => exact ⟨rfl, rfl⟩
    | [_, _, _], _ => exact ⟨rfl, rfl⟩
    | _ :: _ :: _ :: _ :: _, hlen => simp at hlen; omega
  · cases hg : goAtoi [c₀, c₁, c₂] with
    | none => simp [response, readLine, hg]
    | some code => simp [response, readLine, hg, hhy, hsp]

/-- C9 witness: a 3-character line and a line whose 4th character is `x`. -/
theorem response_framing_error_witness :
    ((response [some ("220".toList)]).1.1 = ⟨0, []⟩ ∧
      ((response [some ("220".toList)]).1.2).isSome = true) ∧
    ((response [some ("500x oops".toList)]).1.1 = ⟨0, []⟩ ∧
      ((response [some ("500x oops".toList)]).1.2).isSome = true) :=
  ⟨response_framing_error ("220".toList) [] (Or.inl (by decide)),
   response_framing_error ("500x oops".toList) []
    (Or.inr ⟨'5', '0', '0', 'x', " oops".toList, rfl, by decide, by decide⟩)⟩

/-! ## Helper lemmas: `strings.LastIndex` -/

theorem occursAt_of_ge_len (pat s : Line) (c : Char) (cs : List Char) (hp : pat = c :: cs)
    (j : Nat) (hj : s.length ≤ j) : occursAt pat s j = false := by
  have hd : s.drop j = [] := List.drop_eq_nil_of_le hj
  rw [occursAt, hd, hp]
  rfl

theorem lastIdxAux_some (pat s : Line) : ∀ n i, lastIdxAux pat s n = some i →
    occursAt pat s i = true ∧ i < n ∧ ∀ j, i < j → j < n → occursAt pat s j = false := by
  intro n
  induction n with
  | zero => intro i h; simp [lastIdxAux] at h
  | succ n ih =>
    intro i h
    rw [lastIdxAux] at h
    by_cases ho : occursAt pat s n = true
    · rw [if_pos ho] at h
      obtain rfl : n = i := by injection h
      exact ⟨ho, by omega, fun j h1 h2 => by omega⟩
    · rw [if_neg ho] at h
      obtain ⟨h1, h2, h3⟩ := ih i h
      refine ⟨h1, by omega, fun j hj1 hj2 => ?_⟩
      by_cases hjn : j = n
      · subst hjn; simpa using ho
      · exact h3 j hj1 (by omega)

theorem lastIdxAux_none (pat s : Line) : ∀ n, lastIdxAux pat s n = none →
    ∀ j, j < n → occursAt pat s j = false := by
  intro n
  induction n with
  | zero => intro _ j hj; omega
  | succ n ih =>
    intro h j hj
    rw [lastIdxAux] at h
    by_cases ho : occursAt pat s n = true
    · rw [if_pos ho] at h; exact absurd h (by simp)
    · rw [if_neg ho] at h
      by_cases hjn : j = n
      · subst hjn; simpa using ho
      · exact ih h j (by omega)

/-- `i` is an occurrence of `pat` in `s` and no later position is. -/
def isLastOcc (pat s : Line) (i : Nat) : Prop :=
  occursAt pat s i = true ∧ ∀ j, j < s.length + 1 → i < j → occursAt pat s j = false

instance (pat s : Line) (i : Nat) : Decidable (isLastOcc pat s i) :=
  inferInstanceAs (Decidable (_ ∧ _))

theorem lastIndexOf_eq_some (pat s : Line) (i : Nat) (c : Char) (cs : List Char)
    (hp : pat = c :: cs) (h : isLastOcc pat s i) : lastIndexOf pat s = some i := by
  obtain ⟨h1, h2⟩ := h
  have hi : i < s.length + 1 := by
    by_contra hc
    rw [occursAt_of_ge_len pat s c cs hp i (by omega)] at h1
    exact absurd h1 (by simp)
  cases hk : lastIndexOf pat s with
  | none =>
    have := lastIdxAux_none pat s (s.length + 1) hk i hi
    rw [this] at h1
    exact absurd h1 (by simp)
  | some k =>
    obtain ⟨hk1, hk2, hk3⟩ := lastIdxAux_some pat s (s.length + 1) k hk
    rcases Nat.lt_trichotomy i k with hik | hik | hik
    · rw [h2 k hk2 hik] at hk1
      exact absurd hk1 (by simp)
    · rw [hik]
    · rw [hk3 i hik hi] at h1
      exact absurd h1 (by simp)

theorem lastIndexOf_eq_none (pat s : Line)
    (h : ∀ i, i < s.length + 1 → occursAt pat s i = false) : lastIndexOf pat s = none := by
  cases hk : lastIndexOf pat s with
  | none => rfl
  | some k =>
    obtain ⟨hk1, hk2, _⟩ := lastIdxAux_some pat s (s.length + 1) k hk
    rw [h k hk2] at hk1
    exact absurd hk1 (by simp)

/-- C6: `parseEpsvReply` takes the last occurrence of the start delimiter
`(|||` and the last occurrence of the end delimiter `|)`, requires the end
strictly after the start, and parses the digits between them as the port
(conjunct 1); a missing start delimiter, a missing end delimiter, or an end
at or before the start each yield the error `EPSV reply provided no port`
(conjuncts 2-4); the test body yields port `1031` and with the start
delimiter doubled the last occurrence is used (conjuncts 5-6). -/
theorem parseEpsvReply_spec :
    (∀ msg st en p, isLastOcc epsvStart msg st → isLastOcc epsvEnd msg en → st + 4 < en →
      goAtoi ((msg.drop (st + 4)).take (en - (st + 4))) = some p →
      parseEpsvReply msg = .ok p) ∧
    (∀ msg, (∀ i, i < msg.length + 1 → occursAt epsvStart msg i = false) →
      parseEpsvReply msg = .error (.str "EPSV reply provided no port")) ∧
    (∀ msg, (∀ i, i < msg.length + 1 → occursAt epsvEnd msg i = false) →
      parseEpsvReply msg = .error (.str "EPSV reply provided no port")) ∧
    (∀ msg st en, isLastOcc epsvStart msg st → isLastOcc epsvEnd msg en → en ≤ st + 4 →
      parseEpsvReply msg = .error (.str "EPSV reply provided no port")) ∧
    parseEpsvReply ("229 Entering Extended Passive Mode. (|||1031|)".toList) = .ok 1031 ∧
    parseEpsvReply ("229 =(|||7|) text (|||1031|)".toList) = .ok 1031 := by
  have h4 : epsvStart.length = 4 := rfl
  refine ⟨?_, ?_, ?_, ?_, by decide, by decide⟩
  · intro msg st en p hst hen hlt hp
    have e1 := lastIndexOf_eq_some epsvStart msg st '(' "|||".toList rfl hst
    have e2 := lastIndexOf_eq_some epsvEnd msg en '|' [')'] rfl hen
    simp only [parseEpsvReply, e1, e2, h4]
    rw [if_neg (by omega), hp]
  · intro msg h
    rw [parseEpsvReply, lastIndexOf_eq_none epsvStart msg h]
  · intro msg h
    rw [parseEpsvReply]
    cases hst : lastIndexOf epsvStart msg with
    | none => rfl
    | some st => rw [lastIndexOf_eq_none epsvEnd msg h]
  · intro msg st en hst hen hle
    have e1 := lastIndexOf_eq_some epsvStart msg st '(' "|||".toList rfl hst
    have e2 := lastIndexOf_eq_some epsvEnd msg en '|' [')'] rfl hen
    simp only [parseEpsvReply, e1, e2, h4]
    rw [if_pos (by omega)]

/-- C6 witness: each delimiter-driven branch of `parseEpsvReply_spec` applied
at a concrete body. -/
theorem parseEpsvReply_spec_witness :
    parseEpsvReply ("229 Entering Extended Passive Mode. (|||1031|)".toList) = .ok 1031 ∧
    parseEpsvReply ("no delims here".toList) = .error (.str "EPSV reply provided no port") ∧
    parseEpsvReply ("(|||123".toList) = .error (.str "EPSV reply provided no port") ∧
    parseEpsvReply ("(|||7|) (|||".toList) = .error (.str "EPSV reply provided no port") :=
  ⟨parseEpsvReply_spec.1 ("229 Entering Extended Passive Mode. (|||1031|)".toList) 36 44 1031
      (by decide) (by decide) (by decide) (by decide),
   parseEpsvReply_spec.2.1 ("no delims here".toList) (by decide),
   parseEpsvReply_spec.2.2.1 ("(|||123".toList) (by decide),
   parseEpsvReply_spec.2.2.2.1 ("(|||7|) (|||".toList) 8 5 (by decide) (by decide) (by decide)⟩

/-! ## Helper lemmas: the PASV sextet scan -/

theorem findSextet_eq_none (msg : Line) :
    (∀ i, i < msg.length + 1 → matchSextetAt (msg.drop i) = none) → findSextet msg = none := by
  induction msg with
  | nil => intro _; rfl
  | cons c rest ih =>
    intro h
    have h0 := h 0 (by omega)
    rw [List.drop_zero] at h0
    rw [findSextet, h0]
    exact ih fun i hi => by
      have := h (i + 1) (by simp at hi ⊢; omega)
      rwa [List.drop_succ_cons] at this

theorem findSextet_eq_some (i : Nat) : ∀ (msg : Line) (g : List Line),
    matchSextetAt (msg.drop i) = some g →
    (∀ j, j < i → matchSextetAt (msg.drop j) = none) → findSextet msg = some g := by
  induction i with
  | zero =>
    intro msg g h _
    cases msg with
    | nil => rw [List.drop_zero] at h; exact absurd h (by simp [matchSextetAt, matchNumList, matchNum])
    | cons c rest =>
      rw [List.drop_zero] at h
      rw [findSextet, h]
  | succ i ih =>
    intro msg g h hj
    cases msg with
    | nil => exact absurd h (by simp [matchSextetAt, matchNumList, matchNum])
    | cons c rest =>
      have h0 := hj 0 (by omega)
      rw [List.drop_zero] at h0
      rw [findSextet, h0]
      rw [List.drop_succ_cons] at h
      exact ih rest g h fun j hjj => by
        have := hj (j + 1) (by omega)
        rwa [List.drop_succ_cons] at this

/-- Evaluation of `parsePasvReply` once the leftmost sextet is known. -/
theorem parsePasvReply_found (msg : Line) (i : Nat) (s₁ s₂ s₃ s₄ s₅ s₆ : Line)
    (h : matchSextetAt (msg.drop i) = some [s₁, s₂, s₃, s₄, s₅, s₆])
    (hj : ∀ j, j < i → matchSextetAt (msg.drop j) = none) :
    parsePasvReply msg = .ok ⟨[byteOfGroup s₁, byteOfGroup s₂, byteOfGroup s₃, byteOfGroup s₄],
      ((byteOfGroup s₅ <<< 8) ||| byteOfGroup s₆ : Nat)⟩ := by
  have hf := findSextet_eq_some i msg _ h hj
  simp [parsePasvReply, hf]

theorem byteOfGroup_small (s : Line) (h : digsVal s < 2 ^ 63) : byteOfGroup s = digsVal s % 256 := by
  rw [byteOfGroup, goAtoiClamp, min_eq_left (by omega)]

/-- C7: a message containing six comma-separated decimal byte values (the
leftmost sextet the digit-run pattern matches, each value at most 255)
parses to the address with host `h1.h2.h3.h4` and port `p1*256 + p2`
(conjunct 2, with the test body as conjunct 3); a message in which the
pattern matches nowhere yields the error `PASV reply provided no port`
(conjunct 1). -/
theorem parsePasvReply_spec :
    (∀ msg, (∀ i, i < msg.length + 1 → matchSextetAt (msg.drop i) = none) →
      parsePasvReply msg = .error (.str "PASV reply provided no port")) ∧
    (∀ msg i s₁ s₂ s₃ s₄ s₅ s₆,
      matchSextetAt (msg.drop i) = some [s₁, s₂, s₃, s₄, s₅, s₆] →
      (∀ j, j < i → matchSextetAt (msg.drop j) = none) →
      digsVal s₁ ≤ 255 → digsVal s₂ ≤ 255 → digsVal s₃ ≤ 255 → digsVal s₄ ≤ 255 →
      digsVal s₅ ≤ 255 → digsVal s₆ ≤ 255 →
      parsePasvReply msg = .ok ⟨[digsVal s₁, digsVal s₂, digsVal s₃, digsVal s₄],
        (digsVal s₅ * 256 + digsVal s₆ : Nat)⟩) ∧
    parsePasvReply ("227 Entering Passive Mode. 192,0,2,47,4,7".toList) = .ok ⟨[192, 0, 2, 47], 1031⟩ := by
  refine ⟨?_, ?_, by decide⟩
  · intro msg h
    rw [parsePasvReply, findSextet_eq_none msg h]
  · intro msg i s₁ s₂ s₃ s₄ s₅ s₆ h hj h1 h2 h3 h4 h5 h6
    rw [parsePasvReply_found msg i s₁ s₂ s₃ s₄ s₅ s₆ h hj]
    have e : ∀ s : Line, digsVal s ≤ 255 → byteOfGroup s = digsVal s := fun s hs => by
      rw [byteOfGroup_small s (by omega), Nat.mod_eq_of_lt (by omega)]
    rw [e s₁ h1, e s₂ h2, e s₃ h3, e s₄ h4, e s₅ h5, e s₆ h6,
      shiftLeft8_or _ _ (by omega)]

/-- C7 witness: the no-sextet branch at `hello` and the sextet branch at the
`TestParsePasvReply` body. -/
theorem parsePasvReply_spec_witness :
    parsePasvReply ("hello".toList) = .error (.str "PASV reply provided no port") ∧
    parsePasvReply ("227 Entering Passive Mode. 192,0,2,47,4,7".toList)
      = .ok ⟨[192, 0, 2, 47], (192 * 0 + 4 * 256 + 7 : Nat)⟩ :=
  ⟨parsePasvReply_spec.1 ("hello".toList) (by decide),
   parsePasvReply_spec.2.1 ("227 Entering Passive Mode. 192,0,2,47,4,7".toList) 27
      ("192".toList) ("0".toList) ("2".toList) ("47".toList) ("4".toList) ("7".toList)
      (by decide) (by decide) (by decide) (by decide) (by decide) (by decide)
      (by decide) (by decide)⟩

/-- C10 counterexample: a matched component of `2^63` is not truncated to its
low 8 bits (which are 0); Go's `strconv.Atoi` saturates it at `2^63 - 1`
before the byte conversion, so the host byte comes out as 255. -/
theorem parsePasvReply_saturation :
    parsePasvReply ("9223372036854775808,0,2,47,4,7".toList) = .ok ⟨[255, 0, 2, 47], 1031⟩ ∧
    (9223372036854775808 : Nat) % 256 = 0 ∧ (255 : Nat) ≠ 0 := by
  refine ⟨by decide, by norm_num, by decide⟩

/-- C10 (amended): for every matched sextet whose components are below the
64-bit saturation bound `2^63`, `parsePasvReply` does not reject the reply:
each component is truncated to its low 8 bits, so a sextet beginning
`999,...` yields the host byte `231`; components at or above `2^63`
saturate to `2^63 - 1` first and therefore give the byte 255. -/
theorem parsePasvReply_byte_truncation :
    (∀ msg i s₁ s₂ s₃ s₄ s₅ s₆,
      matchSextetAt (msg.drop i) = some [s₁, s₂, s₃, s₄, s₅, s₆] →
      (∀ j, j < i → matchSextetAt (msg.drop j) = none) →
      digsVal s₁ < 2 ^ 63 → digsVal s₂ < 2 ^ 63 → digsVal s₃ < 2 ^ 63 → digsVal s₄ < 2 ^ 63 →
      digsVal s₅ < 2 ^ 63 → digsVal s₆ < 2 ^ 63 →
      parsePasvReply msg = .ok ⟨[digsVal s₁ % 256, digsVal s₂ % 256, digsVal s₃ % 256,
          digsVal s₄ % 256],
        ((digsVal s₅ % 256) * 256 + digsVal s₆ % 256 : Nat)⟩) ∧
    (∀ s : Line, 2 ^ 63 ≤ digsVal s → byteOfGroup s = 255) ∧
    parsePasvReply ("227 x 999,0,2,47,4,7".toList) = .ok ⟨[231, 0, 2, 47], 1031⟩ := by
  refine ⟨?_, ?_, by decide⟩
  · intro msg i s₁ s₂ s₃ s₄ s₅ s₆ h hj h1 h2 h3 h4 h5 h6
    rw [parsePasvReply_found msg i s₁ s₂ s₃ s₄ s₅ s₆ h hj,
      byteOfGroup_small s₁ h1, byteOfGroup_small s₂ h2, byteOfGroup_small s₃ h3,
      byteOfGroup_small s₄ h4, byteOfGroup_small s₅ h5, byteOfGroup_small s₆ h6,
      shiftLeft8_or _ _ (by omega)]
  · intro s hs
    rw [byteOfGroup, goAtoiClamp, min_eq_right (by omega)]
    norm_num

/-- C10 witness: the truncation branch at the `999` sextet. -/
theorem parsePasvReply_byte_truncation_witness :
    parsePasvReply ("227 x 999,0,2,47,4,7".toList)
      = .ok ⟨[999 % 256, 0 % 256, 2 % 256, 47 % 256], ((4 % 256) * 256 + 7 % 256 : Nat)⟩ :=
  parsePasvReply_byte_truncation.1 ("227 x 999,0,2,47,4,7".toList) 6
    ("999".toList) ("0".toList) ("2".toList) ("47".toList) ("4".toList) ("7".toList)
    (by decide) (by decide) (by decide) (by decide) (by decide) (by decide)
    (by decide) (by decide)

/-! ## Concrete scenarios for the negotiation and lifecycle claims -/

/-- An IPv6 control connection (`RemoteAddr().Network() == "tcp6"`) whose
server answers `EPSV` with port 1031 and `PASV` with `192,0,2,47,4,7`. -/
def st6 : ConnState :=
  ⟨true, [32, 1, 13, 184, 0, 0, 0, 0, 0, 0, 0, 0, 0, 0, 0, 1], [],
    [some ("229 Entering Extended Passive Mode. (|||1031|)".toList),
     some ("227 Entering Passive Mode. 192,0,2,47,4,7".toList)], []⟩

/-- C1: on an IPv6 control connection the current `obtainPassiveAddress`
calls `obtainPassiveAddress6` as a bare statement, discarding the EPSV-built
address, and unconditionally falls through to the PASV path: both `EPSV` and
`PASV` are sent, and the returned address is the PASV-parsed one, not the
EPSV address built from the control peer's IP as the claim requires. -/
theorem obtainPassiveAddress_ipv6_epsv_discarded :
    (obtainPassiveAddress st6).1 = .ok ⟨[192, 0, 2, 47], 1031⟩ ∧
    (obtainPassiveAddress st6).2.sent = ["EPSV", "PASV"] ∧
    (⟨[192, 0, 2, 47], 1031⟩ : TCPAddr) ≠ ⟨st6.peerIP, 1031⟩ := by
  refine ⟨by decide, by decide, by decide⟩

/-- C2: in the cancellable path of `sendCommand` nothing is ever sent on the
`result` channel the `select` reads (the goroutine is `go c.sendCmd(command)`
with the unit's result discarded), so no outcome of the race can carry the
unit's reply: the call returns the cancellation error when the signal fires
and blocks forever otherwise — while the same unit raced through
`readWelcome`'s channel (which does send its result) is deliverable. -/
theorem sendCommand_cancellable_never_delivers (command : String) (st : ConnState) (c : Bool)
    (o : RaceOutcome (Reply × Option GoErr))
    (h : selectRace (sendCommandResultChanSends command st) c o) :
    (∀ x, o ≠ .recv x) ∧ (o = .cancelled → c = true) ∧ (c = false → o = .stuck) ∧
      selectRace (readWelcomeResultChanSends st) c
        (.recv ((response st.rd).1.1, (response st.rd).1.2.map .rerr)) := by
  rw [sendCommandResultChanSends] at h
  have hw : selectRace (readWelcomeResultChanSends st) c
      (.recv ((response st.rd).1.1, (response st.rd).1.2.map .rerr)) :=
    selectRace.recv _ [] c
  cases h with
  | cancelled => exact ⟨fun x => by simp, fun _ => rfl, fun hc => by simp at hc, hw⟩
  | stuck => exact ⟨fun x => by simp, fun hc => by simp at hc, fun _ => rfl, hw⟩

/-- C2 witness: with a never-firing cancellation signal the only possible
outcome, `stuck`, is not a delivery of the unit's result. -/
theorem sendCommand_cancellable_never_delivers_witness :
    (RaceOutcome.stuck : RaceOutcome (Reply × Option GoErr)) ≠ .recv (⟨0, []⟩, none) :=
  (sendCommand_cancellable_never_delivers "NOOP" ⟨false, [], [], [], []⟩ false .stuck
    selectRace.stuck).1 (⟨0, []⟩, none)

/-- A `transfer` run in which `TYPE` and `PASV` succeed, the dial succeeds,
and the transfer command is refused with `550`. -/
def envLeak : TransferEnv :=
  ⟨⟨false, [10, 0, 0, 1], [],
    [some ("200 Type set to I".toList),
     some ("227 Entering Passive Mode. 192,0,2,47,4,7".toList),
     some ("550 No such file".toList)], []⟩, false⟩

/-- The same run, but the transfer command dies with a transport error. -/
def envIOErr : TransferEnv :=
  ⟨⟨false, [10, 0, 0, 1], [],
    [some ("200 Type set to I".toList),
     some ("227 Entering Passive Mode. 192,0,2,47,4,7".toList),
     none], []⟩, false⟩

/-- C3: when the transfer command draws a non-positive (`550`) reply after
the data connection has been opened, `transfer` returns the reply as the
error but the deferred close does not run (the `err` variable it tests is
nil), leaving the data connection open — whereas a transport error on the
same step does set `err` and the connection is closed. -/
theorem transfer_nonpositive_reply_leaks_conn :
    ((transfer "RETR f" "I" envLeak).res = .error (.reply ⟨550, "No such file".toList⟩) ∧
     (transfer "RETR f" "I" envLeak).connOpened = true ∧
     (transfer "RETR f" "I" envLeak).connClosed = false) ∧
    ((transfer "RETR f" "I" envIOErr).res = .error (.rerr .ioErr) ∧
     (transfer "RETR f" "I" envIOErr).connClosed = true) := by
  refine ⟨⟨by decide, by decide, by decide⟩, by decide, by decide⟩

/-- C4 counterexample: a `transferConn` whose underlying data transport fails
to close performs no reply read at all — `Close` returns that error with the
control stream untouched — refuting "for every transferConn, `Close` …
performs exactly one reply read". -/
theorem tcClose_skips_read_on_close_error :
    tcClose true [some ("226 Closing data connection".toList)]
      = (some .dclose, [some ("226 Closing data connection".toList)], 0) := by
  decide

/-- C4 (amended): whenever the underlying data transport closes successfully,
`Close` performs exactly one reply read on the control connection — even if
the caller never read or wrote any bytes — returning nil on a 2xx reply,
the reply itself as the error otherwise, and the read's transport error if
the read fails; if the underlying close fails, its error is returned and no
reply read happens. -/
theorem tcClose_spec (rd : ReadStream) :
    (∀ r rd₁, response rd = ((r, none), rd₁) →
      tcClose false rd = ((if r.PositiveComplete then none else some (.reply r)), rd₁, 1)) ∧
    (∀ r e rd₁, response rd = ((r, some e), rd₁) →
      tcClose false rd = (some (.rerr e), rd₁, 1)) ∧
    tcClose true rd = (some .dclose, rd, 0) := by
  refine ⟨?_, ?_, rfl⟩
  · intro r rd₁ h
    by_cases hp : r.PositiveComplete
    · simp [tcClose, h, hp]
    · simp [tcClose, h, hp]
  · intro r e rd₁ h
    simp [tcClose, h]

/-- C4 witness: a close with no prior traffic still consumes exactly one
reply; `226` maps to nil, `550` to the reply-as-error, a read failure to the
transport error. -/
theorem tcClose_spec_witness :
    tcClose false [some ("226 Done".toList)] = (none, [], 1) ∧
    tcClose false [some ("550 Bad".toList)] = (some (.reply ⟨550, "Bad".toList⟩), [], 1) ∧
    tcClose false [none] = (some (.rerr .ioErr), [], 1) := by
  refine ⟨?_, ?_, ?_⟩
  · rw [(tcClose_spec [some ("226 Done".toList)]).1 ⟨226, "Done".toList⟩ [] (by decide)]
    decide
  · rw [(tcClose_spec [some ("550 Bad".toList)]).1 ⟨550, "Bad".toList⟩ [] (by decide)]
    decide
  · exact (tcClose_spec [none]).2.1 ⟨0, []⟩ .ioErr [] (by decide)

end Ftp
